import Mathlib

/-!
Verification of the grimp layered-import analyzer specification against the
repository's code.

The value objects (`Module`, `DirectImport`) are shallowly embedded from
`src/grimp/domain/valueobjects.py`.  The layers analyzer
(`find_illegal_dependencies_for_layers` and the `ImportGraph` adaptor) is not
part of the provided sources — only its unit tests are — so it is modelled
from the specification (each such definition carries a doc comment starting
with "Modelled from the spec:").

Python's builtin `hash` on strings is implementation-defined; following the
standard idealization, hash equality on strings is modelled as string
equality (a collision-free hash).  Where a claim is specifically about the
dependence of equality on the hash function, the hash is kept as an explicit
parameter (`valueObjectEqUnderHash`).
-/

set_option maxRecDepth 20000

namespace Grimp

/-- Auxiliary splitter over character lists: accumulates the current segment
(reversed) and cuts at every dot.  Embeds the behaviour of Python's
`name.split(".")`. -/
def splitDotAux : List Char → List Char → List (List Char)
  | [], acc => [acc.reverse]
  | c :: cs, acc =>
    if c = '.' then acc.reverse :: splitDotAux cs []
    else splitDotAux cs (c :: acc)

/-- Python's `s.split(".")` (note `"".split(".") == [""]`). -/
def splitOnDot (s : String) : List String :=
  (splitDotAux s.data []).map String.mk

/-- Python's `".".join(xs)`. -/
def joinDot : List String → String
  | [] => ""
  | [x] => x
  | x :: y :: xs => x ++ "." ++ joinDot (y :: xs)

/-- Python's `s.startswith(p)`. -/
def strStartsWith (s p : String) : Bool := p.data.isPrefixOf s.data

/-- Embeds `Module` from `valueobjects.py`: a fully-qualified dotted name together
with the name of its top level package (`package_name`). -/
structure Module where
  name : String
  package_name : String
deriving DecidableEq

/-- Embeds `Module.__init__`: `self.package_name = top_level_package or
name.split(".")[0]` (the empty string is falsy in Python). -/
def Module.make (name top_level_package : String) : Module :=
  ⟨name, if top_level_package = "" then (splitOnDot name).headD "" else top_level_package⟩

/-- Embeds `Module.root`: `Module(self.package_name, top_level_package=self.package_name)`. -/
def Module.root (m : Module) : Module :=
  Module.make m.package_name m.package_name

/-- Embeds `ValueObject.__eq__` specialised to `Module`: Python compares
`hash(str(self)) == hash(str(other))` where `str` is the module name;
modelled with a collision-free hash, i.e. as name equality. -/
def Module.eq (a b : Module) : Bool := a.name == b.name

/-- Embeds `Module.parent`: raises `ValueError` (modelled as `none`) when
`self == self.root or len(components) == 1`; otherwise returns
`Module(".".join(components[:-1]))` — note: constructed without a
`top_level_package`. -/
def Module.parent (m : Module) : Option Module :=
  let components := splitOnDot m.name
  if m.eq m.root || components.length == 1 then none
  else some (Module.make (joinDot components.dropLast) "")

/-- Embeds `Module.is_child_of`: `module == self.parent`, with the `ValueError`
from a missing parent absorbed to `False`. -/
def Module.is_child_of (a m : Module) : Bool :=
  match a.parent with
  | some p => m.eq p
  | none => false

/-- Embeds `Module.is_descendant_of`: `self.name.startswith(f"{module.name}.")`. -/
def Module.is_descendant_of (a m : Module) : Bool :=
  strStartsWith a.name (m.name ++ ".")

/-- Embeds `DirectImport` from `valueobjects.py`. -/
structure DirectImport where
  importer : Module
  imported : Module
  line_number : Nat
  line_contents : String
deriving DecidableEq

/-- Embeds `DirectImport.__str__`: `"{} -> {} (l. {})".format(importer, imported, line_number)`. -/
def DirectImport.str (d : DirectImport) : String :=
  d.importer.name ++ " -> " ++ d.imported.name ++ " (l. " ++ Nat.repr d.line_number ++ ")"

/-- The data hashed by `DirectImport.__hash__`: `hash((str(self), self.line_contents))`. -/
def DirectImport.hashKey (d : DirectImport) : String × String :=
  (d.str, d.line_contents)

/-- Embeds `ValueObject.__eq__` specialised to `DirectImport`: hash comparison,
modelled collision-free as equality of the hashed data. -/
def DirectImport.eq (a b : DirectImport) : Bool :=
  a.hashKey == b.hashKey

/-- Embeds `ValueObject.__eq__` on `Module` with the hash function kept explicit:
Python returns `hash(str(self)) == hash(str(other))` where the outer `hash`
is the interpreter's string hash `h`. -/
def valueObjectEqUnderHash (α : Type) [DecidableEq α] (h : String → α) (a b : Module) : Bool :=
  decide (h a.name = h b.name)

/-- Modelled from the spec: the `ImportGraph` adaptor (not in the provided
sources) — a directed graph `G = (M, E)` over module names, edges directed
from importer to imported. -/
structure ImportGraph where
  modules : List String
  imports : List (String × String)
deriving DecidableEq

/-- Modelled from the spec: the empty import graph. -/
def ImportGraph.empty : ImportGraph := ⟨[], []⟩

/-- Modelled from the spec: `add_module` — idempotent insertion. -/
def ImportGraph.add_module (g : ImportGraph) (m : String) : ImportGraph :=
  if g.modules.contains m then g else ⟨m :: g.modules, g.imports⟩

/-- Modelled from the spec: `add_import` — idempotent insertion of both
endpoints and the directed edge (auto-adds missing endpoints). -/
def ImportGraph.add_import (g : ImportGraph) (importer imported : String) : ImportGraph :=
  let g2 := (g.add_module importer).add_module imported
  if g2.imports.contains (importer, imported) then g2
  else ⟨g2.modules, (importer, imported) :: g2.imports⟩

/-- Modelled from the spec: outgoing neighbours of `m` (multiple textual
imports between the same endpoints collapse into one edge). -/
def ImportGraph.successors (g : ImportGraph) (m : String) : List String :=
  ((g.imports.filter (fun e => e.1 == m)).map (fun e => e.2)).dedup

/-- Modelled from the spec: membership of `m` in the subtree of package
`pkg` — `m` is `pkg` itself or strictly descends it (name algebra). -/
def inSubtree (m pkg : String) : Bool :=
  m == pkg || strStartsWith m (pkg ++ ".")

/-- Modelled from the spec: a raw illegal chain `head → middle… → tail`
found by the chain finder for one (higher, lower) layer pair. -/
structure Chain where
  head : String
  middle : List String
  tail : String
deriving DecidableEq

/-- Modelled from the spec: a `Route` — heads set, ordered middle tuple,
tails set (the sets are kept as duplicate-free lists). -/
structure Route where
  heads : List String
  middle : List String
  tails : List String
deriving DecidableEq

/-- Modelled from the spec: a `PackageDependency` — one illegal
(upstream, downstream) layer pair with its compressed routes. -/
structure PackageDependency where
  upstream : String
  downstream : String
  routes : List Route
deriving DecidableEq

/-- Modelled from the spec: the route compressor.  Chains sharing the same
nonempty interior ordered tuple `middle` are grouped into one `Route` whose
`heads`/`tails` are the unions of the group's first/last elements.  Each
direct chain (empty `middle`) remains its own `Route`, as pinned by the unit
tests in the sources (`TestMultipleContainers.test_multiple_illegal_imports`
expects the direct chains `one.low.white → one.high.green` and
`one.low.white → one.high.brown`, which share the empty middle, as two
distinct Routes). -/
def compressChains (chains : List Chain) : List Route :=
  ((chains.filter (fun c => c.middle.isEmpty)).dedup).map
    (fun c => ⟨[c.head], [], [c.tail]⟩)
  ++ (((chains.filter (fun c => !c.middle.isEmpty)).map Chain.middle).dedup).map (fun mid =>
    ⟨((chains.filter (fun c => c.middle == mid)).map Chain.head).dedup,
      mid,
      ((chains.filter (fun c => c.middle == mid)).map Chain.tail).dedup⟩)

/-- Modelled from the spec: the directed search of the chain finder.  From
`cur` it follows import edges in the working view: reaching the higher
layer's bundle (`hi`) ends a chain; the lower layer's bundle (`lo`), other
layers' subtrees of the same container (`others`) and already-visited
waypoints are excluded as interior nodes.  `fuel` bounds the path length
(simple paths, so `|modules| + 1` suffices). -/
def searchFrom (g : ImportGraph) (hi lo : String) (others : List String) :
    Nat → String → List String → List (List String × String)
  | 0, _, _ => []
  | fuel + 1, cur, visited =>
    (g.successors cur).flatMap (fun nxt =>
      if inSubtree nxt hi then [([], nxt)]
      else if inSubtree nxt lo then []
      else if others.any (fun p => inSubtree nxt p) then []
      else if visited.contains nxt then []
      else (searchFrom g hi lo others fuel nxt (nxt :: visited)).map
        (fun mt => (nxt :: mt.1, mt.2)))

/-- Modelled from the spec: the chain finder for one (higher, lower) layer
pair — all simple chains from a module in the lower layer's subtree to a
module in the higher layer's subtree, with interior waypoints outside both
bundles and outside the same container's other layer subtrees. -/
def findChains (g : ImportGraph) (hi lo : String) (others : List String) : List Chain :=
  ((g.modules.filter (fun m => inSubtree m lo)).flatMap (fun h =>
    (searchFrom g hi lo others (g.modules.length + 1) h []).map
      (fun mt => ⟨h, mt.1, mt.2⟩))).dedup

/-- Modelled from the spec: the layer resolver for one container case —
each layer name is evaluated absolutely (no container) or as
`container + "." + layer`; layer packages absent from the graph are
silently skipped, preserving the high-to-low order. -/
def layerPackages (g : ImportGraph) (layers : List String) (container : Option String) :
    List String :=
  (layers.map (fun l =>
    match container with
    | none => l
    | some c => c ++ "." ++ l)).filter (fun p => g.modules.contains p)

/-- Modelled from the spec: all ordered pairs `(Li, Lj)` with `i < j`
(first component the higher layer). -/
def layerPairs : List String → List (String × String)
  | [] => []
  | x :: xs => xs.map (fun y => (x, y)) ++ layerPairs xs

/-- Modelled from the spec: analysis of a single container case — for each
ordered pair of present layers run the chain finder (hiding the other
present layers of the same container) and the route compressor, emitting a
`PackageDependency` (upstream = lower layer, downstream = higher layer)
whenever at least one chain was found. -/
def analyzeContainer (g : ImportGraph) (layers : List String) (container : Option String) :
    List PackageDependency :=
  let present := layerPackages g layers container
  (layerPairs present).filterMap (fun hl =>
    let others := present.filter (fun p => !(p == hl.1) && !(p == hl.2))
    let chains := findChains g hl.1 hl.2 others
    if chains.isEmpty then none
    else some ⟨hl.2, hl.1, compressChains chains⟩)

/-- Modelled from the spec: the public entry
`find_illegal_dependencies_for_layers` — validates the containers first
(failing with `NoSuchContainer`, modelled as `Except.error` carrying the
missing container's name, before any analysis), then analyzes each
container case and returns the union of the package dependencies. -/
def find_illegal_dependencies_for_layers (g : ImportGraph) (layers : List String)
    (containers : List String) : Except String (List PackageDependency) :=
  match containers.find? (fun c => !(g.modules.contains c)) with
  | some c => .error c
  | none =>
    if containers.isEmpty then .ok (analyzeContainer g layers none)
    else .ok (containers.flatMap (fun c => analyzeContainer g layers (some c)))

/-- Modelled from the spec: graph construction as in the unit tests — add
the given modules, then the given imports. -/
def buildGraph (ms : List String) (es : List (String × String)) : ImportGraph :=
  es.foldl (fun g e => g.add_import e.1 e.2)
    (ms.foldl (fun g m => g.add_module m) ImportGraph.empty)

/-- Two direct imports differing only in their line number. -/
def dImp1 : DirectImport :=
  ⟨Module.make "mypackage.foo" "", Module.make "mypackage.bar" "", 1,
    "from mypackage import bar"⟩

/-- Same importer, imported module and line contents as `dImp1`, but on line 2. -/
def dImp2 : DirectImport :=
  ⟨Module.make "mypackage.foo" "", Module.make "mypackage.bar" "", 2,
    "from mypackage import bar"⟩

/-- A graph containing the container `one` but not the container `two`. -/
def missingContainerGraph : ImportGraph := buildGraph ["one"] []

/-- The missing-layer scenario of the unit tests: only `mypackage.medium`
and `mypackage.high` exist; `mypackage.low` does not. -/
def missingLayerGraph : ImportGraph :=
  buildGraph ["mypackage", "mypackage.medium", "mypackage.high"]
    [("mypackage.medium.blue", "mypackage.high.green")]

/-- The cross-container scenario of claim C2: containers `one` and `two`,
edges `one.low.white → two.medium.pink` and `two.medium.pink → one.high.green`. -/
def crossContainerGraph : ImportGraph :=
  buildGraph
    ["one", "two", "one.high", "one.high.green", "one.low", "one.low.white",
     "two.medium", "two.medium.pink"]
    [("one.low.white", "two.medium.pink"),
     ("two.medium.pink", "one.high.green")]

/-- Two direct chains sharing the empty middle but with different tails, as
in `TestMultipleContainers.test_multiple_illegal_imports`. -/
def directChainsDemo : List Chain :=
  [⟨"one.low.white", [], "one.high.green"⟩, ⟨"one.low.white", [], "one.high.brown"⟩]

lemma splitDotAux_length_pos (cs acc : List Char) : 0 < (splitDotAux cs acc).length := by
  induction cs generalizing acc with
  | nil => simp [splitDotAux]
  | cons c cs ih =>
    by_cases hc : c = '.'
    · simp [splitDotAux, hc]
    · simpa [splitDotAux, hc] using ih (c :: acc)

lemma splitDotAux_length_one (cs acc : List Char) :
    (splitDotAux cs acc).length = 1 ↔ '.' ∉ cs := by
  induction cs generalizing acc with
  | nil => simp [splitDotAux]
  | cons c cs ih =>
    by_cases hc : c = '.'
    · subst hc
      have hpos := splitDotAux_length_pos cs []
      simp [splitDotAux]
      exact List.length_pos.mp hpos
    · have hcd : ('.' : Char) ≠ c := fun h => hc h.symm
      simp [splitDotAux, hc, ih (c :: acc), List.mem_cons, hcd]

lemma splitOnDot_length_one (s : String) : (splitOnDot s).length = 1 ↔ '.' ∉ s.data := by
  simpa [splitOnDot] using splitDotAux_length_one s.data []

lemma is_descendant_of_iff (a b : Module) :
    a.is_descendant_of b = true ↔ ∃ rest : String, a.name = b.name ++ "." ++ rest := by
  unfold Module.is_descendant_of strStartsWith
  rw [ List.isPrefixOf_iff_prefix]
  constructor
  · rintro ⟨t, ht⟩
    exact ⟨⟨t⟩, String.ext ht.symm⟩
  · rintro ⟨rest, hrest⟩
    refine ⟨rest.data, ?_⟩
    rw [hrest]
    simp [String.data_append]

lemma countP_beq_of_nodup {α : Type} [BEq α] [LawfulBEq α] (l : List α) (hl : l.Nodup)
    (a : α) : l.countP (fun x => x == a) = if a ∈ l then 1 else 0 := by
  induction l with
  | nil => simp
  | cons x xs ih =>
    rcases List.nodup_cons.mp hl with ⟨hx, hxs⟩
    by_cases hxa : x = a
    · subst hxa
      simp [List.countP_cons, ih hxs, hx]
    · have hax : a ≠ x := fun h => hxa h.symm
      have hbeq : (x == a) = false := by simp [hxa]
      simp [List.countP_cons, ih hxs, hbeq, List.mem_cons, hax]

/-- Claim C2: with containers `one` and `two` and layers high → medium →
low, the chain `one.low.white → two.medium.pink → one.high.green` is not
hidden by the cross-container module `two.medium.pink`: the analysis
attributes a Route with middle `("two.medium.pink",)` to the
PackageDependency with upstream `one.low` and downstream `one.high`. -/
theorem cross_container_middle_reported :
    find_illegal_dependencies_for_layers crossContainerGraph
      ["high", "medium", "low"] ["one", "two"]
    = .ok [⟨"one.low", "one.high",
        [⟨["one.low.white"], ["two.medium.pink"], ["one.high.green"]⟩]⟩] := by
  rfl

/-- Claim C1 counterexample: two direct chains share the same (empty)
middle, yet the route compressor does not collapse them into exactly one
Route with the union of their tails — it yields two distinct Routes, as the
repository's own unit test expects. -/
theorem route_compressor_keeps_direct_chains_separate :
    directChainsDemo.all (fun c => c.middle == ([] : List String)) = true ∧
    compressChains directChainsDemo
      = [⟨["one.low.white"], [], ["one.high.green"]⟩,
         ⟨["one.low.white"], [], ["one.high.brown"]⟩] ∧
    ¬ (compressChains directChainsDemo).countP
        (fun r => r.middle == ([] : List String)) = 1 := by
  refine ⟨rfl, rfl, ?_⟩
  decide

/-- Claim C5 counterexample: two `DirectImport`s with the same importer,
imported module and line contents but different line numbers are not
identical for deduplication — the hashed data includes `str(self)`, which
contains the line number. -/
theorem direct_import_eq_depends_on_line_number :
    dImp1.importer = dImp2.importer ∧ dImp1.imported = dImp2.imported ∧
    dImp1.line_contents = dImp2.line_contents ∧
    dImp1.eq dImp2 = false ∧ dImp1.hashKey ≠ dImp2.hashKey := by
  refine ⟨rfl, rfl, rfl, rfl, ?_⟩
  decide

/-- Claim C6 counterexample: `ValueObject.__eq__` compares hash values, so
Module equality is not independent of the hash function — under a constant
hash, two Modules with different names compare equal. -/
theorem module_eq_not_hash_independent :
    valueObjectEqUnderHash Nat (fun _ => 0)
      (Module.make "alpha" "") (Module.make "beta" "") = true ∧
    (Module.make "alpha" "").name ≠ (Module.make "beta" "").name := by
  exact ⟨rfl, by decide⟩

/-- Claim C5 (amended): two `DirectImport`s with the same importer, imported
module, line contents *and line number* are identical for deduplication:
they are equal and their hashed data coincides. -/
theorem direct_import_identity_includes_line_number (a b : DirectImport)
    (h1 : a.importer.name = b.importer.name) (h2 : a.imported.name = b.imported.name)
    (h3 : a.line_number = b.line_number) (h4 : a.line_contents = b.line_contents) :
    a.eq b = true ∧ a.hashKey = b.hashKey := by
  have hstr : a.str = b.str := by
    unfold DirectImport.str
    rw [h1, h2, h3]
  have hk : a.hashKey = b.hashKey := by
    unfold DirectImport.hashKey
    rw [hstr, h4]
  refine ⟨?_, hk⟩
  unfold DirectImport.eq
  rw [hk]
  exact beq_self_eq_true _

/-- Witness for the amended claim C5 at a concrete input. -/
theorem direct_import_identity_includes_line_number_witness :
    dImp1.eq dImp1 = true ∧ dImp1.hashKey = dImp1.hashKey :=
  direct_import_identity_includes_line_number dImp1 dImp1 rfl rfl rfl rfl

/-- Claim C6 (amended): Module equality is equality of the hashes of the
names; whenever the string hash function is injective (collision-free),
two Modules are equal exactly when their dotted name strings are equal. -/
theorem module_eq_iff_name_eq_of_injective_hash (α : Type) [DecidableEq α]
    (h : String → α) (hinj : Function.Injective h) (a b : Module) :
    valueObjectEqUnderHash α h a b = true ↔ a.name = b.name := by
  unfold valueObjectEqUnderHash
  simp only [decide_eq_true_eq]
  exact ⟨fun hh => hinj hh, fun hh => by rw [hh]⟩

/-- Witness for the amended claim C6 at a concrete injective hash. -/
theorem module_eq_iff_name_eq_of_injective_hash_witness :
    valueObjectEqUnderHash String id (Module.make "x.y" "") (Module.make "x.y" "") = true :=
  (module_eq_iff_name_eq_of_injective_hash String id (fun _ _ hh => hh)
    (Module.make "x.y" "") (Module.make "x.y" "")).mpr rfl

/-- Claim C7: `is_descendant_of(a, b)` holds exactly when `a`'s name
strictly starts with `b`'s name followed by a dot; no module is a
descendant of itself, and sharing a prefix without a dot boundary
(`a.bb` vs `a.b`) is not descendance. -/
theorem module_is_descendant_of_spec (a b : Module) :
    (a.is_descendant_of b = true ↔ ∃ rest : String, a.name = b.name ++ "." ++ rest) ∧
    a.is_descendant_of a = false ∧
    (Module.make "a.bb" "").is_descendant_of (Module.make "a.b" "") = false := by
  refine ⟨is_descendant_of_iff a b, ?_, by decide⟩
  cases hdesc : a.is_descendant_of a
  · rfl
  · exfalso
    obtain ⟨rest, hr⟩ := (is_descendant_of_iff a a).mp hdesc
    have hlen := congrArg (fun s : String => s.data.length) hr
    simp at hlen

/-- Claim C8: `parent` fails exactly when the module equals its own root or
its name has a single dotted component (contains no dot); otherwise the
parent is named by the module's name with its last dotted component
removed. -/
theorem module_parent_spec (m : Module) :
    (m.parent = none ↔ (m.eq m.root = true ∨ '.' ∉ m.name.data)) ∧
    m.parent.all (fun p => p.name == joinDot (splitOnDot m.name).dropLast) = true := by
  have hone := splitOnDot_length_one m.name
  unfold Module.parent
  cases hr : m.eq m.root with
  | true => simp [hr]
  | false =>
    cases hn : (splitOnDot m.name).length == 1 with
    | true =>
      have : '.' ∉ m.name.data := hone.mp (by simpa using hn)
      simp [hr, hn, this]
    | false =>
      have : ¬ '.' ∉ m.name.data := fun hc => by
        have := hone.mpr hc
        simp [this] at hn
      simp [hr, hn, this, Module.make]

/-- Claim C9: `is_child_of(a, b)` holds exactly when `a` has a parent and
that parent equals `b`; when `a` has no parent the failure is absorbed and
the result is `false`. -/
theorem module_is_child_of_spec (a b : Module) :
    a.is_child_of b = true ↔ ∃ p, a.parent = some p ∧ b.name = p.name := by
  unfold Module.is_child_of
  cases h : a.parent with
  | none => simp
  | some p => simp [Module.eq, beq_iff_eq]

/-- Claim C3: the analysis fails (with `NoSuchContainer`, carrying a missing
container's name) exactly when some requested container is not a module in
the graph; the failure is the whole result — it happens before any
analysis, so no `PackageDependency` is produced alongside it. -/
theorem no_such_container_iff_missing (g : ImportGraph) (layers containers : List String) :
    match find_illegal_dependencies_for_layers g layers containers with
    | .error n => n ∈ containers ∧ n ∉ g.modules
    | .ok _ => ∀ c ∈ containers, c ∈ g.modules := by
  unfold find_illegal_dependencies_for_layers
  cases hf : containers.find? (fun c => !(g.modules.contains c)) with
  | some c =>
    have hp := List.find?_some hf
    have hm := List.mem_of_find?_eq_some hf
    simp only [Bool.not_eq_true'] at hp
    refine ⟨hm, fun hin => ?_⟩
    have h3 : List.elem c g.modules = false := hp
    rw [List.elem_iff.mpr hin] at h3
    simp at h3
  | none =>
    cases he : containers.isEmpty <;>
    · simp only [he, if_true, if_false]
      intro c hc
      have h2 := List.find?_eq_none.mp hf c hc
      simp only [Bool.not_eq_true', Bool.not_eq_false] at h2
      exact List.elem_iff.mp h2

/-- Witness for claim C3 at a concrete graph missing the container `two`. -/
theorem no_such_container_iff_missing_witness :
    match find_illegal_dependencies_for_layers missingContainerGraph
        ["high", "medium", "low"] ["one", "two"] with
    | .error n => n ∈ ["one", "two"] ∧ n ∉ missingContainerGraph.modules
    | .ok _ => ∀ c ∈ ["one", "two"], c ∈ missingContainerGraph.modules :=
  no_such_container_iff_missing missingContainerGraph ["high", "medium", "low"]
    ["one", "two"]

/-- Claim C4: layer names resolving to no module in the graph never cause
an error (whenever the containers are valid the analysis returns a result),
and absent layers are silently skipped: the analysis over the full layer
sequence coincides with the analysis over just the layers present in the
graph, so illegal imports between present layers are still reported. -/
theorem missing_layers_skipped (g : ImportGraph) (layers containers : List String)
    (hc : ∀ c ∈ containers, c ∈ g.modules) :
    (∃ pds, find_illegal_dependencies_for_layers g layers containers = .ok pds) ∧
    find_illegal_dependencies_for_layers g layers []
      = find_illegal_dependencies_for_layers g
          (layers.filter (fun l => g.modules.contains l)) [] := by
  constructor
  · have hf : containers.find? (fun c => !(g.modules.contains c)) = none := by
      rw [List.find?_eq_none]
      intro c hcm h4
      have h5 : List.elem c g.modules = false := by simpa using h4
      have h3 : List.elem c g.modules = true := List.elem_iff.mpr (hc c hcm)
      rw [h3] at h5
      simp at h5
    unfold find_illegal_dependencies_for_layers
    rw [hf]
    cases containers.isEmpty
    · exact ⟨_, rfl⟩
    · exact ⟨_, rfl⟩
  · have hlp : layerPackages g layers none
        = layerPackages g (layers.filter (fun l => g.modules.contains l)) none := by
      unfold layerPackages
      have h1 : (layers.map (fun l =>
          match (none : Option String) with
          | none => l
          | some c => c ++ "." ++ l)) = layers := List.map_id' layers
      have h2 : ((layers.filter (fun l => g.modules.contains l)).map (fun l =>
          match (none : Option String) with
          | none => l
          | some c => c ++ "." ++ l)) = layers.filter (fun l => g.modules.contains l) :=
        List.map_id' _
      rw [h1, h2, List.filter_filter]
      simp [Bool.and_self]
    unfold find_illegal_dependencies_for_layers
    simp only [List.find?_nil, List.isEmpty_nil, if_true]
    unfold analyzeContainer
    rw [hlp]

/-- Witness for claim C4 at the missing-layer scenario of the unit tests. -/
theorem missing_layers_skipped_witness :
    (∃ pds, find_illegal_dependencies_for_layers missingLayerGraph
        ["mypackage.high", "mypackage.medium", "mypackage.low"] [] = .ok pds) ∧
    find_illegal_dependencies_for_layers missingLayerGraph
        ["mypackage.high", "mypackage.medium", "mypackage.low"] []
      = find_illegal_dependencies_for_layers missingLayerGraph
          (["mypackage.high", "mypackage.medium", "mypackage.low"].filter
            (fun l => missingLayerGraph.modules.contains l)) [] :=
  missing_layers_skipped missingLayerGraph
    ["mypackage.high", "mypackage.medium", "mypackage.low"] [] (by simp)

/-- Claim C1 (amended): the route compressor groups chains by their ordered
interior tuple `middle`, but only chains with a nonempty middle collapse:
for a nonempty middle there is exactly one Route carrying it (when some
chain does), whose heads and tails are the unions of the matching chains'
first and last elements, and middles that differ — including by order —
give distinct Routes; each direct chain (empty middle) instead remains its
own Route with singleton heads and tails. -/
theorem route_compressor_spec (chains : List Chain) (mid : List String) (hmid : mid ≠ []) :
    ((compressChains chains).countP (fun r => r.middle == mid)
      = if chains.any (fun c => c.middle == mid) then 1 else 0) ∧
    (∀ r, r ∈ compressChains chains → r.middle = mid →
      (∀ hd, hd ∈ r.heads ↔ ∃ c, c ∈ chains ∧ c.middle = mid ∧ c.head = hd) ∧
      (∀ tl, tl ∈ r.tails ↔ ∃ c, c ∈ chains ∧ c.middle = mid ∧ c.tail = tl)) ∧
    (∀ r, r ∈ compressChains chains → r.middle = [] →
      ∃ c, c ∈ chains ∧ c.middle = [] ∧ r.heads = [c.head] ∧ r.tails = [c.tail]) ∧
    (∀ c, c ∈ chains → c.middle = [] →
      (⟨[c.head], [], [c.tail]⟩ : Route) ∈ compressChains chains) := by
  unfold compressChains
  refine ⟨?_, ?_, ?_, ?_⟩
  · rw [List.countP_append]
    have hA : (((chains.filter (fun c => c.middle.isEmpty)).dedup).map
        (fun c => (⟨[c.head], [], [c.tail]⟩ : Route))).countP
          (fun r => r.middle == mid) = 0 := by
      rw [List.countP_eq_zero]
      intro r hr
      obtain ⟨c, _, rfl⟩ := List.mem_map.mp hr
      simp only [beq_iff_eq]
      exact fun h => hmid (by simpa using h.symm)
    have hB : ((((chains.filter (fun c => !c.middle.isEmpty)).map Chain.middle).dedup).map
        (fun mid' =>
          (⟨((chains.filter (fun c => c.middle == mid')).map Chain.head).dedup,
            mid',
            ((chains.filter (fun c => c.middle == mid')).map Chain.tail).dedup⟩ : Route))).countP
          (fun r => r.middle == mid)
        = if mid ∈ (chains.filter (fun c => !c.middle.isEmpty)).map Chain.middle
          then 1 else 0 := by
      rw [List.countP_map]
      have := countP_beq_of_nodup
        (((chains.filter (fun c => !c.middle.isEmpty)).map Chain.middle).dedup)
        (List.nodup_dedup _) mid
      rw [show ((fun r : Route => r.middle == mid) ∘ (fun mid' =>
          (⟨((chains.filter (fun c => c.middle == mid')).map Chain.head).dedup,
            mid',
            ((chains.filter (fun c => c.middle == mid')).map Chain.tail).dedup⟩ : Route)))
          = (fun x => x == mid) from rfl]
      rw [this]
      exact if_congr List.mem_dedup rfl rfl
    rw [hA, hB, Nat.zero_add]
    have hcond : mid ∈ (chains.filter (fun c => !c.middle.isEmpty)).map Chain.middle
        ↔ chains.any (fun c => c.middle == mid) = true := by
      simp only [List.mem_map, List.mem_filter, List.any_eq_true, beq_iff_eq]
      constructor
      · rintro ⟨c, ⟨hcm, _⟩, h⟩
        exact ⟨c, hcm, h⟩
      · rintro ⟨c, hcm, h⟩
        refine ⟨c, ⟨hcm, ?_⟩, h⟩
        cases hmt : c.middle with
        | nil =>
          exfalso
          apply hmid
          rw [← h, hmt]
        | cons x xs => simp [hmt]
    simp only [hcond]
  · intro r hr hmidr
    rcases List.mem_append.mp hr with hrA | hrB
    · exfalso
      obtain ⟨c, _, rfl⟩ := List.mem_map.mp hrA
      exact hmid (by simpa using hmidr.symm)
    · obtain ⟨m', _, rfl⟩ := List.mem_map.mp hrB
      have hm : m' = mid := hmidr
      subst hm
      constructor
      · intro hd
        simp only [List.mem_dedup, List.mem_map, List.mem_filter, beq_iff_eq]
        constructor
        · rintro ⟨c, ⟨hcm, hcmid⟩, h⟩
          exact ⟨c, hcm, hcmid, h⟩
        · rintro ⟨c, hcm, hcmid, h⟩
          exact ⟨c, ⟨hcm, hcmid⟩, h⟩
      · intro tl
        simp only [List.mem_dedup, List.mem_map, List.mem_filter, beq_iff_eq]
        constructor
        · rintro ⟨c, ⟨hcm, hcmid⟩, h⟩
          exact ⟨c, hcm, hcmid, h⟩
        · rintro ⟨c, hcm, hcmid, h⟩
          exact ⟨c, ⟨hcm, hcmid⟩, h⟩
  · intro r hr hmid0
    rcases List.mem_append.mp hr with hrA | hrB
    · obtain ⟨c, hcdedup, rfl⟩ := List.mem_map.mp hrA
      have hcf := List.mem_filter.mp (List.mem_dedup.mp hcdedup)
      exact ⟨c, hcf.1, by simpa [List.isEmpty_iff] using hcf.2, rfl, rfl⟩
    · exfalso
      obtain ⟨m', hm', rfl⟩ := List.mem_map.mp hrB
      obtain ⟨c, hcf, hcm⟩ := List.mem_map.mp (List.mem_dedup.mp hm')
      have h2 := (List.mem_filter.mp hcf).2
      rw [hcm] at h2
      have : m' = [] := hmid0
      rw [this] at h2
      simp at h2
  · intro c hc hc0
    refine List.mem_append.mpr (Or.inl (List.mem_map.mpr
      ⟨c, List.mem_dedup.mpr (List.mem_filter.mpr ⟨hc, ?_⟩), rfl⟩))
    simp [hc0]

/-- Witness for the amended claim C1: two chains sharing the nonempty
middle `("w",)` and one direct chain. -/
theorem route_compressor_spec_witness :
    (compressChains [⟨"a1", ["w"], "b1"⟩, ⟨"a2", ["w"], "b2"⟩, ⟨"a0", [], "b0"⟩]).countP
        (fun r => r.middle == ["w"])
      = if ([⟨"a1", ["w"], "b1"⟩, ⟨"a2", ["w"], "b2"⟩,
            (⟨"a0", [], "b0"⟩ : Chain)] : List Chain).any
            (fun c => c.middle == ["w"]) then 1 else 0 :=
  (route_compressor_spec [⟨"a1", ["w"], "b1"⟩, ⟨"a2", ["w"], "b2"⟩, ⟨"a0", [], "b0"⟩]
    ["w"] (by decide)).1

/-- Claim C10: taking the parent of a module in a namespace package
discards the declared namespace root: `Module("ns.pkg.mod",
top_level_package="ns.pkg").parent` is the plain `Module("ns.pkg")`, whose
`package_name` reverts to `ns` and which itself has the parent `ns`, even
though `Module("ns.pkg", top_level_package="ns.pkg")` has no parent. -/
theorem namespace_module_parent_escapes_root :
    (Module.make "ns.pkg.mod" "ns.pkg").parent = some (Module.make "ns.pkg" "") ∧
    (Module.make "ns.pkg" "").package_name = "ns" ∧
    (Module.make "ns.pkg" "").root = Module.make "ns" "" ∧
    (Module.make "ns.pkg" "").parent = some (Module.make "ns" "") ∧
    (Module.make "ns.pkg" "ns.pkg").parent = none := by
  refine ⟨rfl, rfl, rfl, rfl, rfl⟩

end Grimp

